import Mathlib

/-!
Verification of the pygraf (pytelegraf) metric client against its
natural-language specification.

The development shallowly embeds the Python sources:
 - `telegraf/client.py` — `ClientBase.metric`, `TelegrafClient.send` (UDP),
   `HttpClient.send` (HTTP), `TimerHelper` (decorator / context manager);
 - `telegraf/context.py` — `wrapped_coroutine` (async timing wrapper).

Python dicts become association lists in insertion order; Python exceptions
become an explicit `Except` result; `time()` values and float arithmetic are
modelled over `ℚ`; transport effects are modelled by returning the list of
payloads handed to the transport.

The line-protocol encoder (`telegraf/protocol.py`, class `Line`) is not part
of the sources available here; where it is needed it is modelled from the
spec, as marked on the individual definitions.
-/

namespace Pygraf

/-- Python exceptions that the embedded code can raise or catch. `typeError`
is `TypeError`, `notImplementedError` is `NotImplementedError`,
`invalidMetricError` is the encoder's error on an empty measurement name,
`socketError` is `socket.error` (an `OSError`) and `runtimeError` is
`RuntimeError`. -/
inductive PyExc where
  | typeError (msg : String)
  | notImplementedError (msg : String)
  | invalidMetricError
  | socketError
  | runtimeError
  | userExc (n : Nat)
deriving DecidableEq

/-- True exactly on `Except.ok` results: "no exception was raised". -/
def isOkE {α : Type} : Except PyExc α → Bool
  | .ok _ => true
  | .error _ => false

/-- A line-protocol field value, the tagged-value variant of the dynamic
type dispatch integer / float / string / boolean performed by the encoder.
Python floats are modelled by rationals. -/
inductive FieldValue where
  | int (n : ℤ)
  | float (q : ℚ)
  | str (s : String)
  | boolean (b : Bool)
deriving DecidableEq

/-! ### Python dict model

A Python dict is an insertion-ordered association list with unique keys.
`dictGet` is `d[k]` (first matching key), `dictSet` is `d[k] = v`
(update in place if the key exists, append otherwise), and `dictMerge d u`
is `dict(d, **u)`. -/

/-- Lookup in a Python dict: the value at the first matching key. -/
def dictGet (m : List (String × String)) (k : String) : Option String :=
  (m.find? (fun p => p.1 == k)).map (fun p => p.2)

/-- Whether a key is present in a Python dict. -/
def dictHasKey (m : List (String × String)) (k : String) : Bool :=
  m.any (fun p => p.1 == k)

/-- Python dict item assignment `m[k] = v`: overwrite the value at an
existing key in place, otherwise append the new pair at the end. -/
def dictSet (m : List (String × String)) (k v : String) : List (String × String) :=
  if dictHasKey m k then
    m.map (fun p => if p.1 == k then (k, v) else p)
  else
    m ++ [(k, v)]

/-- `dict(d, **u)`: start from `d` and assign every item of `u` in order,
so a key of `u` overwrites a same-key entry of `d`. -/
def dictMerge (d u : List (String × String)) : List (String × String) :=
  u.foldl (fun acc p => dictSet acc p.1 p.2) d

/-! ### Line-protocol encoder

`telegraf/protocol.py` is not among the available sources, so the encoder
below is modelled from the spec (section 4.1), as the doc comments state. -/

/-- Character of a single decimal digit `d < 10`. -/
def digitChar (d : Nat) : Char := Char.ofNat (48 + d)

/-- Decimal digits of a natural number, most significant first; `fuel`
bounds the recursion (any `fuel > n` is enough). -/
def natDigitsAux : Nat → Nat → List Char
  | 0, _ => []
  | fuel + 1, n =>
    if n < 10 then [digitChar n]
    else natDigitsAux fuel (n / 10) ++ [digitChar (n % 10)]

/-- Decimal representation of a natural number. -/
def natDecimal (n : Nat) : String := String.mk (natDigitsAux (n + 1) n)

/-- Decimal representation of an integer. -/
def intDecimal (n : ℤ) : String :=
  (if n < 0 then "-" else "") ++ natDecimal n.natAbs

/-- Decimal digits of the fractional part `num / den` (with `num < den`),
long division one digit at a time, stopping at remainder zero or when the
`fuel` bound (the finite precision of a Python float's repr) runs out. -/
def fracDigitsAux : Nat → Nat → Nat → List Char
  | 0, _, _ => []
  | fuel + 1, num, den =>
    if num = 0 then []
    else digitChar (num * 10 / den) :: fracDigitsAux fuel (num * 10 % den) den

/-- Modelled from the spec: the encoder's "plain decimal representation, no
suffix" for a float field value (`telegraf/protocol.py` is not in the
available sources). Sign, integer part, and a fractional part only when it
is non-zero, so a numerically whole float such as `2.0` renders as `2`. -/
def decimalOfRat (q : ℚ) : String :=
  let a : ℚ := |q|
  let ip : Nat := a.num.toNat / a.den
  let fnum : Nat := a.num.toNat % a.den
  let frac : List Char := fracDigitsAux 17 fnum a.den
  (if q < 0 then "-" else "") ++ natDecimal ip ++
    (if frac.isEmpty then "" else "." ++ String.mk frac)

/-- The characters a plain decimal representation can contain: a sign, a
decimal point and the ten digits. The letter `i` is not among them. -/
def floatChars : List Char :=
  ['-', '.', '0', '1', '2', '3', '4', '5', '6', '7', '8', '9']

/-- Modelled from the spec: escaping for measurement names, tag keys, tag
values and field keys — a backslash before each comma, space and equals
sign. -/
def escapeKey (s : String) : String :=
  String.mk (s.data.flatMap fun c =>
    if c = ',' ∨ c = ' ' ∨ c = '=' then ['\\', c] else [c])

/-- Modelled from the spec: escaping inside a string field value — a
backslash before each double quote and backslash. -/
def escapeStringValue (s : String) : String :=
  String.mk (s.data.flatMap fun c =>
    if c = '"' ∨ c = '\\' then ['\\', c] else [c])

/-- Modelled from the spec: type-specific field value formatting —
integer with the explicit `i` suffix, float as plain decimal, boolean as
a bare literal, string double-quoted with internal escaping. -/
def formatFieldValue : FieldValue → String
  | .int n => intDecimal n ++ "i"
  | .float q => decimalOfRat q
  | .str s => "\"" ++ escapeStringValue s ++ "\""
  | .boolean b => if b then "true" else "false"

/-- Modelled from the spec: the tag block, a leading comma before each
escaped `key=value` pair, empty when there are no tags. -/
def tagBlock (tags : List (String × String)) : String :=
  String.join (tags.map fun p => "," ++ escapeKey p.1 ++ "=" ++ escapeKey p.2)

/-- Modelled from the spec: the field block, comma-separated escaped
`key=value` pairs with type-specific value formatting. -/
def fieldBlock (fields : List (String × FieldValue)) : String :=
  String.intercalate "," (fields.map fun p => escapeKey p.1 ++ "=" ++ formatFieldValue p.2)

/-- Modelled from the spec: `Line.to_line_protocol` of
`telegraf/protocol.py` — fails with the encoder's invalid-metric error
only when the name is empty, otherwise produces
`name[,tags] fields[ timestamp]`. -/
def lineProtocol (name : String) (fields : List (String × FieldValue))
    (tags : List (String × String)) (ts : Option ℤ) : Except PyExc String :=
  if name = "" then .error .invalidMetricError
  else .ok (escapeKey name ++ tagBlock tags ++ " " ++ fieldBlock fields ++
    (match ts with
     | none => ""
     | some t => " " ++ intDecimal t))

/-! ### `ClientBase.metric` -/

/-- The `values` argument of `metric()`: either a single scalar or a field
mapping. -/
inductive PyValues where
  | scalar (v : FieldValue)
  | mapping (m : List (String × FieldValue))
deriving DecidableEq

/-- The Python test `values in (None, {})` of `ClientBase.metric`. -/
def valuesEmpty : Option PyValues → Bool
  | none => true
  | some (.mapping []) => true
  | some (.mapping (_ :: _)) => false
  | some (.scalar _) => false

/-- Modelled from the spec (value shorthand of `telegraf/protocol.py`):
a single scalar value becomes the one field keyed `"value"`. -/
def fieldsOf : PyValues → List (String × FieldValue)
  | .scalar v => [("value", v)]
  | .mapping m => m

/-- `ClientBase.metric(measurement_name, values, tags, timestamp)` of
`telegraf/client.py`: return silently when the name is empty or
`values in (None, {})`; otherwise shallow-merge the per-call tags over the
client tags with `dict(self.tags, **tags)`, build the line and hand it to
`self.send`. The result is the list of payloads passed to `send` (inside
`Except`, so that a raised exception would be visible). -/
def metricResult (clientTags : List (String × String)) (name : String)
    (values : Option PyValues) (tags : List (String × String))
    (ts : Option ℤ) : Except PyExc (List String) :=
  if name = "" ∨ valuesEmpty values = true then .ok []
  else
    match values with
    | none => .ok []
    | some vs =>
      (lineProtocol name (fieldsOf vs) (dictMerge clientTags tags) ts).map
        (fun line => [line])

/-! ### Transports -/

/-- UTF-8 encoding of one character (`str.encode('utf8')`, per code
point), bytes as naturals. -/
def utf8EncodeChar (c : Char) : List Nat :=
  let v := c.toNat
  if v < 128 then [v]
  else if v < 2048 then [192 + v / 64, 128 + v % 64]
  else if v < 65536 then [224 + v / 4096, 128 + v / 64 % 64, 128 + v % 64]
  else [240 + v / 262144, 128 + v / 4096 % 64, 128 + v / 64 % 64, 128 + v % 64]

/-- UTF-8 encoding of a string, as the list of its bytes. -/
def strUtf8 (s : String) : List Nat := s.data.flatMap utf8EncodeChar

/-- The exceptions `socket.sendto` can raise that are relevant here:
`socket.error` (any socket-level `OSError`) or `RuntimeError` — exactly the
tuple caught by `TelegrafClient.send`. -/
inductive SockErr where
  | socketError
  | runtimeError
deriving DecidableEq

/-- `TelegrafClient.send(data)` of `telegraf/client.py`: one
`sendto(data.encode('utf8') + b'\n', ...)` guarded by
`except (socket.error, RuntimeError): pass`. `sendtoFail` is the outcome of
the underlying socket call (`none` = success); the result is the list of
datagrams actually sent, inside `Except` so that an escaping exception
would be visible. -/
def udpSend (sendtoFail : Option SockErr) (data : String) :
    Except PyExc (List (List Nat)) :=
  match sendtoFail with
  | none => .ok [strUtf8 data ++ [10]]
  | some _ => .ok []

/-- `HttpClient.send(data)` of `telegraf/client.py`: one POST whose body is
exactly `data`; the result is the list of request bodies issued. -/
def httpSend (data : String) : List String := [data]

/-! ### `TimerHelper` and the async wrapper -/

/-- `TimerHelper.__init__` state: the owning client is kept abstract (only
its `send` is ever used, which the run functions expose as emitted
events). `measurement_name` is `Option` because the constructor default is
`None`. -/
structure TimerHelper where
  measurement_name : Option String
  tags : List (String × String)
  use_ms : Bool
deriving DecidableEq

/-- Python truthiness of `self.measurement_name`
(`not self.measurement_name` is true for `None` and `""`). -/
def nameFalsy (t : TimerHelper) : Bool :=
  match t.measurement_name with
  | none => true
  | some s => s == ""

/-- Floor of a rational, computed by floor division of numerator by
denominator (equal to `⌊q⌋`, see `ratFloor_eq_floor`). -/
def ratFloor (q : ℚ) : ℤ := Int.fdiv q.num q.den

/-- Python 3 `round()` to an integer: round half to even, nearest integer
otherwise — the `int(round(1000 * elapsed))` of `TimerHelper._send`. -/
def pyRound (q : ℚ) : ℤ :=
  if q - ratFloor q = (1 : ℚ) / 2 then
    (if ratFloor q % 2 = 0 then ratFloor q else ratFloor q + 1)
  else ratFloor (q + 1 / 2)

/-- The arguments `TimerHelper._send` passes to `Line`: measurement name,
single value, tags (no timestamp, it is always `None` there). -/
abbrev TimerEvent := Option String × FieldValue × List (String × String)

/-- `TimerHelper._send(start_time)` of `telegraf/client.py`:
`elapsed = time() - start_time` (here `now - start`); with `use_ms` the
value becomes `int(round(1000 * elapsed))` and `tags['units'] = 'ms'` is
assigned on a copy of the configured tags, otherwise the value is the
fractional seconds and `tags['units'] = 's'`; the resulting `Line` data is
the emitted event. -/
def TimerHelper.sendEvent (t : TimerHelper) (now start : ℚ) : TimerEvent :=
  let elapsed : ℚ := now - start
  if t.use_ms then
    (t.measurement_name, .int (pyRound (1000 * elapsed)), dictSet t.tags "units" "ms")
  else
    (t.measurement_name, .float elapsed, dictSet t.tags "units" "s")

/-- `TimerHelper.__enter__` of `telegraf/client.py`: raise
`TypeError("No metric name specified.")` when `not self.measurement_name`,
otherwise record `self.start_time = time()` (returned here as the recorded
start) and succeed. -/
def TimerHelper.enter (t : TimerHelper) (now : ℚ) : Except PyExc ℚ :=
  if nameFalsy t then .error (.typeError "No metric name specified.")
  else .ok now

/-- `TimerHelper.__exit__` of `telegraf/client.py`: call
`self._send(self.start_time)` and fall off the end (return `None`). The
pair is (emitted event, returned value). -/
def TimerHelper.exitRun (t : TimerHelper) (start now : ℚ) :
    TimerEvent × Option Bool :=
  (t.sendEvent now start, none)

/-- Python truthiness of a `__exit__` return value (`None` is falsy). -/
def pyTruthy : Option Bool → Bool
  | none => false
  | some b => b

/-- The synchronous decorator body `wrapped` of `TimerHelper.__call__`:
`start = time(); try: return func(...) finally: self._send(start)`. The
wrapped call itself is summarised by its `outcome` (return or raise); the
result pairs the propagated outcome with the list of emitted events. -/
def syncWrappedRun {α : Type} (t : TimerHelper) (start finish : ℚ)
    (outcome : Except PyExc α) : Except PyExc α × List TimerEvent :=
  (outcome, [t.sendEvent finish start])

/-- `wrapped_co` of `telegraf/context.py` (the async wrapper):
`start = time(); try: return await func(...) finally: self._send(start)` —
structurally the same try/finally around the awaited call. -/
def asyncWrappedRun {α : Type} (t : TimerHelper) (start finish : ℚ)
    (outcome : Except PyExc α) : Except PyExc α × List TimerEvent :=
  (outcome, [t.sendEvent finish start])

/-- A `with client.timer(...)` block, following Python's with-statement
semantics: run `__enter__` (its exception propagates with no event
emitted); run the body; on both exit paths run `__exit__`; after an
exception, re-raise it unless `__exit__` returned a truthy value
(`.ok none` marks a suppressed exception). -/
def withTimer {α : Type} (t : TimerHelper) (enterTime exitTime : ℚ)
    (body : Except PyExc α) : Except PyExc (Option α) × List TimerEvent :=
  match t.enter enterTime with
  | .error e => (.error e, [])
  | .ok start =>
    match body with
    | .ok v =>
      let (ev, _ret) := t.exitRun start exitTime
      (.ok (some v), [ev])
    | .error e =>
      let (ev, ret) := t.exitRun start exitTime
      if pyTruthy ret then (.ok none, [ev]) else (.error e, [ev])

/-! ### Decorator dispatch and the pre-3.5 fallback -/

/-- The shape of a function handed to the decorator: a plain function or a
coroutine function. -/
inductive FuncKind where
  | plain
  | coroutine
deriving DecidableEq

/-- What `TimerHelper.__call__` returns for a given function. -/
inductive WrapperKind where
  | syncWrapper
  | asyncWrapper
deriving DecidableEq

/-- `iscoroutinefunction` as imported by `telegraf/client.py`: the real
`asyncio.iscoroutinefunction` when `is_higher_py35()` holds, otherwise the
module-level fallback `def iscoroutinefunction(*args, **kwargs): return
False`. -/
def iscoroutinefunction (py35 : Bool) (f : FuncKind) : Bool :=
  if py35 then
    (match f with
     | .coroutine => true
     | .plain => false)
  else false

/-- `TimerHelper.__call__(func)` of `telegraf/client.py` (decorator
dispatch): when `iscoroutinefunction(func)` holds return
`wrapped_coroutine(self, func)` — the real async wrapper on Python ≥ 3.5,
or the fallback that raises
`NotImplementedError("Async timer decorator requires Python 3.5 or
higher.")` below 3.5 — otherwise return the synchronous `wrapped`. (The
measurement-name defaulting at the top of `__call__` does not affect which
wrapper is produced.) -/
def timerDecorate (py35 : Bool) (f : FuncKind) : Except PyExc WrapperKind :=
  if iscoroutinefunction py35 f then
    (if py35 then .ok .asyncWrapper
     else .error (.notImplementedError
       "Async timer decorator requires Python 3.5 or higher."))
  else .ok .syncWrapper

/-! ### Dict lemmas -/

/-- Looking up the key of the head pair. -/
theorem dictGet_cons_self (p : String × String) (rest : List (String × String)) :
    dictGet (p :: rest) p.1 = some p.2 := by
  rw [dictGet, List.find?_cons_of_pos rest (by simp)]
  rfl

/-- Looking up a key different from the head pair's key skips the head. -/
theorem dictGet_cons_of_ne (p : String × String) (rest : List (String × String))
    (k : String) (h : ¬ p.1 = k) : dictGet (p :: rest) k = dictGet rest k := by
  rw [dictGet, List.find?_cons_of_neg rest (by simp [h]), dictGet]

theorem find?_map_set_self (m : List (String × String)) (k v : String)
    (h : dictHasKey m k = true) :
    (m.map (fun p => if p.1 == k then (k, v) else p)).find? (fun p => p.1 == k)
      = some (k, v) := by
  induction m with
  | nil => simp [dictHasKey] at h
  | cons p rest ih =>
    rw [List.map_cons]
    by_cases hp : p.1 = k
    · have hif : (if (p.1 == k) = true then (k, v) else p) = (k, v) := by simp [hp]
      rw [hif, List.find?_cons_of_pos _ (by simp)]
    · have hif : (if (p.1 == k) = true then (k, v) else p) = p := by simp [hp]
      rw [hif, List.find?_cons_of_neg _ (by simp [hp])]
      exact ih (by simpa [dictHasKey, hp] using h)

theorem find?_append_single (m : List (String × String)) (k v : String)
    (h : dictHasKey m k = false) :
    ((m ++ [(k, v)]).find? (fun p => p.1 == k)) = some (k, v) := by
  induction m with
  | nil =>
    rw [List.nil_append, List.find?_cons_of_pos ([] : List (String × String)) (by simp)]
  | cons p rest ih =>
    have hp : ¬ (p.1 = k) := by
      intro hc
      simp [dictHasKey, hc] at h
    have h' : dictHasKey rest k = false := by
      simpa [dictHasKey, hp] using h
    rw [List.cons_append, List.find?_cons_of_neg _ (by simp [hp])]
    exact ih h'

/-- Writing a key then reading it back gives the written value. -/
theorem dictGet_dictSet_self (m : List (String × String)) (k v : String) :
    dictGet (dictSet m k v) k = some v := by
  unfold dictSet
  by_cases h : dictHasKey m k = true
  · simp only [h, if_true, dictGet, find?_map_set_self m k v h]
    rfl
  · simp only [Bool.not_eq_true] at h
    simp only [h, Bool.false_eq_true, if_false, dictGet,
      find?_append_single m k v h]
    rfl

theorem find?_map_set_other (m : List (String × String)) (k k' v : String)
    (hkk : k ≠ k') :
    (m.map (fun p => if p.1 == k' then (k', v) else p)).find? (fun p => p.1 == k)
      = m.find? (fun p => p.1 == k) := by
  induction m with
  | nil => simp
  | cons p rest ih =>
    rw [List.map_cons]
    by_cases hp : p.1 = k'
    · have hif : (if (p.1 == k') = true then (k', v) else p) = (k', v) := by simp [hp]
      have hpk : ¬ (p.1 = k) := by
        rw [hp]; exact fun hc => hkk hc.symm
      rw [hif, List.find?_cons_of_neg _ (by simp; exact fun hc => hkk hc.symm),
        List.find?_cons_of_neg _ (by simp [hpk]), ih]
    · have hif : (if (p.1 == k') = true then (k', v) else p) = p := by simp [hp]
      rw [hif]
      by_cases hpk : p.1 = k
      · rw [List.find?_cons_of_pos _ (by simp [hpk]),
          List.find?_cons_of_pos _ (by simp [hpk])]
      · rw [List.find?_cons_of_neg _ (by simp [hpk]),
          List.find?_cons_of_neg _ (by simp [hpk]), ih]

theorem find?_append_single_other (m : List (String × String)) (k k' v : String)
    (hkk : k ≠ k') :
    ((m ++ [(k', v)]).find? (fun p => p.1 == k)) = m.find? (fun p => p.1 == k) := by
  induction m with
  | nil =>
    rw [List.nil_append, List.find?_cons_of_neg _ (by simp; exact fun hc => hkk hc.symm)]
  | cons p rest ih =>
    by_cases hpk : p.1 = k
    · rw [List.cons_append, List.find?_cons_of_pos _ (by simp [hpk]),
        List.find?_cons_of_pos _ (by simp [hpk])]
    · rw [List.cons_append, List.find?_cons_of_neg _ (by simp [hpk]),
        List.find?_cons_of_neg _ (by simp [hpk]), ih]

/-- Writing one key leaves every other key's value unchanged. -/
theorem dictGet_dictSet_other (m : List (String × String)) (k k' v : String)
    (hkk : k ≠ k') :
    dictGet (dictSet m k' v) k = dictGet m k := by
  unfold dictSet
  by_cases h : dictHasKey m k' = true
  · simp only [h, if_true, dictGet, find?_map_set_other m k k' v hkk]
  · simp only [Bool.not_eq_true] at h
    simp only [h, Bool.false_eq_true, if_false, dictGet,
      find?_append_single_other m k k' v hkk]

/-- A key not present in a dict, in terms of its key list. -/
theorem dictHasKey_eq_false_of_not_mem (m : List (String × String)) (k : String)
    (h : k ∉ m.map Prod.fst) : dictHasKey m k = false := by
  rw [dictHasKey, List.any_eq_false]
  intro p hp
  simp only [beq_iff_eq]
  intro hc
  exact h (List.mem_map.mpr ⟨p, hp, hc⟩)

/-- Lookup through `dict(d, **u)` when the keys of `u` are distinct (as
they are for a Python dict): a key of `u` reads its `u` value, any other
key reads its `d` value. -/
theorem dictGet_dictMerge (d u : List (String × String)) (k : String)
    (h : (u.map Prod.fst).Nodup) :
    dictGet (dictMerge d u) k
      = if dictHasKey u k = true then dictGet u k else dictGet d k := by
  induction u generalizing d with
  | nil => simp [dictMerge, dictHasKey]
  | cons p rest ih =>
    rw [List.map_cons, List.nodup_cons] at h
    obtain ⟨hnm, hrest⟩ := h
    have hmerge : dictMerge d (p :: rest) = dictMerge (dictSet d p.1 p.2) rest := rfl
    rw [hmerge, ih _ hrest]
    by_cases hk : p.1 = k
    · subst hk
      have hno : dictHasKey rest p.1 = false :=
        dictHasKey_eq_false_of_not_mem rest p.1 hnm
      have hyes : dictHasKey (p :: rest) p.1 = true := by
        simp [dictHasKey]
      rw [hno, hyes, if_pos rfl, if_neg (by simp), dictGet_cons_self,
        dictGet_dictSet_self]
    · have hhead : dictHasKey (p :: rest) k = dictHasKey rest k := by
        simp [dictHasKey, hk]
      rw [hhead, dictGet_cons_of_ne p rest k hk,
        dictGet_dictSet_other d k p.1 p.2 (fun hc => hk hc.symm)]

/-! ### Decimal representation lemmas -/

theorem digitChar_mem_floatChars (d : Nat) (h : d < 10) :
    digitChar d ∈ floatChars := by
  revert d
  decide

theorem natDigitsAux_mem_floatChars (fuel : Nat) :
    ∀ n, ∀ c ∈ natDigitsAux fuel n, c ∈ floatChars := by
  induction fuel with
  | zero => intro n c hc; simp [natDigitsAux] at hc
  | succ fuel ih =>
    intro n c hc
    rw [natDigitsAux] at hc
    by_cases h : n < 10
    · rw [if_pos h] at hc
      rcases List.mem_singleton.mp hc with rfl
      exact digitChar_mem_floatChars n h
    · rw [if_neg h] at hc
      rcases List.mem_append.mp hc with h1 | h2
      · exact ih _ c h1
      · rcases List.mem_singleton.mp h2 with rfl
        exact digitChar_mem_floatChars _ (Nat.mod_lt n (by norm_num))

theorem fracDigitsAux_mem_floatChars (fuel : Nat) :
    ∀ num den, num < den → ∀ c ∈ fracDigitsAux fuel num den, c ∈ floatChars := by
  induction fuel with
  | zero => intro num den _ c hc; simp [fracDigitsAux] at hc
  | succ fuel ih =>
    intro num den h c hc
    rw [fracDigitsAux] at hc
    by_cases h0 : num = 0
    · rw [if_pos h0] at hc
      simp at hc
    · rw [if_neg h0] at hc
      have hden : 0 < den := lt_of_le_of_lt (Nat.zero_le num) h
      rcases List.mem_cons.mp hc with rfl | h2
      · apply digitChar_mem_floatChars
        apply (Nat.div_lt_iff_lt_mul hden).mpr
        omega
      · exact ih _ den (Nat.mod_lt _ hden) c h2

theorem mem_data_append {c : Char} {s t : String} (h : c ∈ (s ++ t).data) :
    c ∈ s.data ∨ c ∈ t.data := by
  rw [String.data_append] at h
  exact List.mem_append.mp h

/-- Every character of a rendered float is a sign, a point or a digit. -/
theorem decimalOfRat_chars (q : ℚ) : ∀ c ∈ (decimalOfRat q).data, c ∈ floatChars := by
  intro c hc
  rw [decimalOfRat] at hc
  rcases mem_data_append hc with h1 | h2
  · rcases mem_data_append h1 with hs | hi
    · by_cases hneg : q < 0
      · rw [if_pos hneg] at hs
        rcases List.mem_singleton.mp hs with rfl
        decide
      · rw [if_neg hneg] at hs
        simp at hs
    · exact natDigitsAux_mem_floatChars _ _ c hi
  · by_cases he : (fracDigitsAux 17 (|q|.num.toNat % |q|.den) |q|.den).isEmpty
    · rw [if_pos he] at h2
      simp at h2
    · rw [if_neg he] at h2
      rcases mem_data_append h2 with hdot | hfrac
      · rcases List.mem_singleton.mp hdot with rfl
        decide
      · exact fracDigitsAux_mem_floatChars 17 _ _
          (Nat.mod_lt _ (|q|).den_pos) c hfrac

/-- A rendered float never contains the letter `i`. -/
theorem decimalOfRat_not_contains_i (q : ℚ) :
    (decimalOfRat q).data.contains 'i' = false := by
  have h : 'i' ∉ (decimalOfRat q).data := by
    intro hmem
    have := decimalOfRat_chars q _ hmem
    simp [floatChars] at this
  simpa using h

/-- Validation of the floor used by `pyRound`: it is the mathematical
floor. -/
theorem ratFloor_eq_floor (q : ℚ) : ratFloor q = ⌊q⌋ := by
  rw [Rat.floor_def, ratFloor, Int.fdiv_eq_ediv _ (by positivity)]

/-! ### Claims -/

/-- C1: a `metric()` call with an empty name, or with `values` equal to
`None` or the empty mapping, is a silent no-op — zero transport sends, no
exception. -/
theorem claim_C1 (clientTags : List (String × String)) (name : String)
    (values : Option PyValues) (tags : List (String × String)) (ts : Option ℤ)
    (h : name = "" ∨ values = none ∨ values = some (.mapping [])) :
    metricResult clientTags name values tags ts = .ok [] := by
  have hc : name = "" ∨ valuesEmpty values = true := by
    rcases h with h | h | h
    · exact Or.inl h
    · exact Or.inr (by rw [h]; rfl)
    · exact Or.inr (by rw [h]; rfl)
  rw [metricResult.eq_def, if_pos hc]

theorem claim_C1_witness :
    metricResult [("env", "prod")] "" (some (.scalar (.int 1))) [] none = .ok []
    ∧ metricResult [] "cpu" none [] none = .ok []
    ∧ metricResult [] "cpu" (some (.mapping [])) [] none = .ok [] :=
  ⟨claim_C1 _ _ _ _ _ (Or.inl rfl), claim_C1 _ _ _ _ _ (Or.inr (Or.inl rfl)),
    claim_C1 _ _ _ _ _ (Or.inr (Or.inr rfl))⟩

/-- C2: `metric()` sends with the shallow merge of the client default tags
and the per-call tags, the per-call tag winning on a same-key collision;
in particular defaults `env=prod` merged with call tags `env=staging,
host=a` give exactly `env=staging, host=a`. -/
theorem claim_C2 :
    (∀ (d u : List (String × String)) (k : String), (u.map Prod.fst).Nodup →
      dictGet (dictMerge d u) k
        = if dictHasKey u k = true then dictGet u k else dictGet d k)
    ∧ dictMerge [("env", "prod")] [("env", "staging"), ("host", "a")]
        = [("env", "staging"), ("host", "a")]
    ∧ (∀ (clientTags : List (String × String)) (name : String) (vs : PyValues)
        (tags : List (String × String)) (ts : Option ℤ),
        ¬ name = "" → valuesEmpty (some vs) = false →
        metricResult clientTags name (some vs) tags ts
          = (lineProtocol name (fieldsOf vs) (dictMerge clientTags tags) ts).map
              (fun line => [line])) := by
  refine ⟨fun d u k h => dictGet_dictMerge d u k h, by decide, ?_⟩
  intro clientTags name vs tags ts hn hv
  rw [metricResult, if_neg ?_]
  rintro (hc | hc)
  · exact hn hc
  · rw [hv] at hc
    exact Bool.false_ne_true hc

theorem claim_C2_witness :
    dictGet (dictMerge [("env", "prod")] [("env", "staging"), ("host", "a")]) "env"
        = (if dictHasKey [("env", "staging"), ("host", "a")] "env" = true
           then dictGet [("env", "staging"), ("host", "a")] "env"
           else dictGet [("env", "prod")] "env")
    ∧ metricResult [("env", "prod")] "cpu" (some (.scalar (.int 50)))
        [("env", "staging"), ("host", "a")] none
        = (lineProtocol "cpu" (fieldsOf (.scalar (.int 50)))
            (dictMerge [("env", "prod")] [("env", "staging"), ("host", "a")]) none).map
            (fun line => [line]) :=
  ⟨claim_C2.1 _ _ _ (by decide),
    claim_C2.2.2 _ _ _ _ _ (by decide) (by decide)⟩

/-- C3: a timer report emits `now - start`; with the millisecond flag the
value is the integer-rounded milliseconds and the tag `units=ms` is
assigned last (so it wins any collision), otherwise fractional seconds
with `units=s`; the tag set is the configured tags plus the units tag. -/
theorem claim_C3 (t : TimerHelper) (now start : ℚ) :
    (t.use_ms = true →
      t.sendEvent now start
        = (t.measurement_name, .int (pyRound (1000 * (now - start))),
            dictSet t.tags "units" "ms")
      ∧ dictGet (t.sendEvent now start).2.2 "units" = some "ms")
    ∧ (t.use_ms = false →
      t.sendEvent now start
        = (t.measurement_name, .float (now - start), dictSet t.tags "units" "s")
      ∧ dictGet (t.sendEvent now start).2.2 "units" = some "s") := by
  constructor
  · intro h
    have he : t.sendEvent now start
        = (t.measurement_name, .int (pyRound (1000 * (now - start))),
            dictSet t.tags "units" "ms") := by
      simp only [TimerHelper.sendEvent, h, if_true]
    refine ⟨he, ?_⟩
    rw [he]
    exact dictGet_dictSet_self t.tags "units" "ms"
  · intro h
    have he : t.sendEvent now start
        = (t.measurement_name, .float (now - start), dictSet t.tags "units" "s") := by
      simp only [TimerHelper.sendEvent, h, Bool.false_eq_true, if_false]
    refine ⟨he, ?_⟩
    rw [he]
    exact dictGet_dictSet_self t.tags "units" "s"

theorem claim_C3_witness :
    (TimerHelper.mk (some "task") [("units", "x")] true).sendEvent 3 1
        = (some "task", .int (pyRound (1000 * ((3 : ℚ) - 1))),
            dictSet [("units", "x")] "units" "ms")
    ∧ dictGet ((TimerHelper.mk (some "task") [("units", "x")] true).sendEvent 3 1).2.2
        "units" = some "ms"
    ∧ (TimerHelper.mk (some "task") [] false).sendEvent 3 1
        = (some "task", .float ((3 : ℚ) - 1), dictSet [] "units" "s")
    ∧ dictGet ((TimerHelper.mk (some "task") [] false).sendEvent 3 1).2.2
        "units" = some "s" := by
  obtain ⟨h1, h2⟩ := (claim_C3 (TimerHelper.mk (some "task") [("units", "x")] true) 3 1).1 rfl
  obtain ⟨h3, h4⟩ := (claim_C3 (TimerHelper.mk (some "task") [] false) 3 1).2 rfl
  exact ⟨h1, h2, h3, h4⟩

/-- C4: both timing decorators (synchronous and asynchronous) and the
scoped timer block report the elapsed-time metric exactly once on every
exit path — whether the wrapped work returns normally or raises. -/
theorem claim_C4 (t : TimerHelper) (start finish : ℚ) (e : PyExc)
    (h : nameFalsy t = false) :
    (∀ outcome : Except PyExc Unit,
      syncWrappedRun t start finish outcome = (outcome, [t.sendEvent finish start]))
    ∧ (∀ outcome : Except PyExc Unit,
      asyncWrappedRun t start finish outcome = (outcome, [t.sendEvent finish start]))
    ∧ withTimer t start finish (Except.ok () : Except PyExc Unit)
        = (.ok (some ()), [t.sendEvent finish start])
    ∧ withTimer t start finish (Except.error e : Except PyExc Unit)
        = (.error e, [t.sendEvent finish start]) := by
  refine ⟨fun _ => rfl, fun _ => rfl, ?_, ?_⟩
  · simp [withTimer, TimerHelper.enter, h, TimerHelper.exitRun]
  · simp [withTimer, TimerHelper.enter, h, TimerHelper.exitRun, pyTruthy]

theorem claim_C4_witness :
    syncWrappedRun (TimerHelper.mk (some "f") [] false) 1 4
        (Except.ok () : Except PyExc Unit)
      = (Except.ok (), [(TimerHelper.mk (some "f") [] false).sendEvent 4 1])
    ∧ withTimer (TimerHelper.mk (some "f") [] false) 1 4
        (Except.error (PyExc.userExc 0) : Except PyExc Unit)
      = (.error (PyExc.userExc 0),
          [(TimerHelper.mk (some "f") [] false).sendEvent 4 1]) := by
  obtain ⟨h1, _h2, _h3, h4⟩ :=
    claim_C4 (TimerHelper.mk (some "f") [] false) 1 4 (PyExc.userExc 0) rfl
  exact ⟨h1 (Except.ok ()), h4⟩

/-- C5: entering the scoped timer block without a non-empty measurement
name raises the missing-metric-name error (the
`TypeError("No metric name specified.")` of `__enter__`) synchronously at
entry; with a non-empty name entry records the start timestamp and
succeeds. -/
theorem claim_C5 (t : TimerHelper) (now : ℚ) :
    (nameFalsy t = true →
      t.enter now = .error (.typeError "No metric name specified."))
    ∧ (nameFalsy t = false → t.enter now = .ok now) := by
  constructor
  · intro h
    simp [TimerHelper.enter, h]
  · intro h
    simp [TimerHelper.enter, h]

theorem claim_C5_witness :
    (TimerHelper.mk none [] false).enter 5
        = .error (.typeError "No metric name specified.")
    ∧ (TimerHelper.mk (some "") [] false).enter 5
        = .error (.typeError "No metric name specified.")
    ∧ (TimerHelper.mk (some "db") [] false).enter 5 = .ok 5 :=
  ⟨(claim_C5 (TimerHelper.mk none [] false) 5).1 rfl,
    (claim_C5 (TimerHelper.mk (some "") [] false) 5).1 rfl,
    (claim_C5 (TimerHelper.mk (some "db") [] false) 5).2 rfl⟩

/-- C6: the UDP client's `send` swallows every socket-level error the
underlying `sendto` can raise (`socket.error` or `RuntimeError`): no
exception escapes, and on failure the metric is silently dropped. -/
theorem claim_C6 :
    (∀ (sendtoFail : Option SockErr) (data : String),
      isOkE (udpSend sendtoFail data) = true)
    ∧ (∀ (e : SockErr) (data : String), udpSend (some e) data = .ok []) := by
  refine ⟨fun f d => ?_, fun e d => rfl⟩
  cases f <;> rfl

/-- C7: for every encoded line, the UDP transport sends exactly one
datagram holding the UTF-8 bytes of the line with one trailing newline
appended, while the HTTP transport posts the line as the request body with
nothing appended — the framing asymmetry. -/
theorem claim_C7 :
    (∀ data : String, udpSend none data = .ok [strUtf8 data ++ [10]])
    ∧ (∀ data : String, strUtf8 data ++ [10] = strUtf8 (data ++ "\n"))
    ∧ (∀ data : String, httpSend data = [data]) := by
  refine ⟨fun d => rfl, fun d => ?_, fun d => rfl⟩
  rw [strUtf8, strUtf8, String.data_append, List.flatMap_append]
  have hnl : ("\n".data.flatMap utf8EncodeChar) = [10] := by decide
  rw [hnl]

/-- C8: contrary to the claim, on Python below 3.5 the fallback
`iscoroutinefunction` always answers `false`, so decorating a coroutine
function silently yields the synchronous wrapper and the
`NotImplementedError` of the fallback `wrapped_coroutine` is unreachable
through the decorator. -/
theorem claim_C8 :
    iscoroutinefunction false .coroutine = false
    ∧ timerDecorate false .coroutine = .ok .syncWrapper :=
  ⟨rfl, rfl⟩

/-- C9: integer field values always serialize with the `i` suffix, float
field values never contain an `i` at all, and
`metric("cpu", 50, {"host": "server01"})` with no timestamp yields exactly
the line `cpu,host=server01 value=50i`. -/
theorem claim_C9 :
    (∀ n : ℤ, formatFieldValue (.int n) = intDecimal n ++ "i")
    ∧ (∀ q : ℚ, (formatFieldValue (.float q)).data.contains 'i' = false)
    ∧ metricResult [] "cpu" (some (.scalar (.int 50))) [("host", "server01")] none
        = .ok ["cpu,host=server01 value=50i"] :=
  ⟨fun _ => rfl, fun q => decimalOfRat_not_contains_i q, rfl⟩

/-- C10: `__exit__` returns `None` (falsy) for every exception, so a
scoped timer block never suppresses an exception: the elapsed-time metric
is emitted and the same exception propagates to the caller. -/
theorem claim_C10 (t : TimerHelper) (start finish : ℚ) (e : PyExc)
    (h : nameFalsy t = false) :
    pyTruthy (t.exitRun start finish).2 = false
    ∧ withTimer t start finish (Except.error e : Except PyExc Unit)
        = (.error e, [t.sendEvent finish start]) := by
  refine ⟨rfl, ?_⟩
  simp [withTimer, TimerHelper.enter, h, TimerHelper.exitRun, pyTruthy]

theorem claim_C10_witness :
    pyTruthy ((TimerHelper.mk (some "g") [] true).exitRun 2 5).2 = false
    ∧ withTimer (TimerHelper.mk (some "g") [] true) 2 5
        (Except.error PyExc.runtimeError : Except PyExc Unit)
      = (.error PyExc.runtimeError,
          [(TimerHelper.mk (some "g") [] true).sendEvent 5 2]) :=
  claim_C10 (TimerHelper.mk (some "g") [] true) 2 5 PyExc.runtimeError rfl

end Pygraf
